import Mathlib

/-!
Shallow embedding of `ichnaea/scripts/dump.py` (the `location_dump` script):
the bounding-box where-clause builder `where_area`, the per-shard paginated
export loop of `dump_model`, and the CLI driver `main`.

Strings manipulated by the script (SQL statements, row values, output
buffers) are modelled as lists of characters (`Str`), so that Python string
operations (`join`, `replace`, concatenation) become ordinary list
functions.  External collaborators that the script imports from other
modules of the repository or from the standard library (the database
session, `ichnaea.geocalc.bbox`, `os.path`, numeric parsing, the shard
registry) are modelled as explicit parameters of an `Env` record; their
internals are irrelevant to the properties proved here.
-/

namespace Dump

/-- Python strings, as lists of characters. -/
abbrev Str := List Char

/-- `listStarts pat s` holds when `s` begins with `pat` (Python `s.startswith(pat)`),
used to locate pattern occurrences for `str.replace`. -/
def listStarts : Str → Str → Bool
  | [], _ => true
  | _ :: _, [] => false
  | p :: ps, c :: cs => p == c && listStarts ps cs

/-- One fuel-indexed pass of Python `str.replace`: scan left to right, and at
each position where the (non-empty) pattern matches, emit the replacement and
skip past the matched characters; otherwise copy one character.  Each step
consumes at least one character of the input, so fuel equal to the input
length is always sufficient.  (Python defines `replace` with an empty pattern
differently; the script's single call site uses the constant pattern
`' ORDER BY '`, so that case is modelled as the identity.) -/
def pyReplaceFuel (pat rep : Str) : Nat → Str → Str
  | _, [] => []
  | 0, s => s
  | fuel + 1, c :: cs =>
    if pat ≠ [] ∧ listStarts pat (c :: cs) then
      rep ++ pyReplaceFuel pat rep fuel (List.drop (pat.length - 1) cs)
    else
      c :: pyReplaceFuel pat rep fuel cs

/-- Python `s.replace(pat, rep)`: replace every non-overlapping occurrence of
`pat` in `s`, scanning left to right. -/
def pyReplace (s pat rep : Str) : Str :=
  pyReplaceFuel pat rep s.length s

/-- The positions at which `pat` occurs in `s`: all `i` with `pat` a prefix of
`s.drop i`.  `occList pat s = [i]` states that `pat` occurs in `s` exactly
once, at position `i`. -/
def occList (pat s : Str) : List Nat :=
  (List.range (s.length + 1)).filter (fun i => listStarts pat (s.drop i))

/-- Python `'\n'.join(l)`. -/
def joinNL : List Str → Str
  | [] => []
  | [r] => r
  | r :: rs => r ++ '\n' :: joinNL rs

/-- The buffer `dump_model` writes for one page of fetched rows
(`rows` are the rows' `export_value` strings):
`buf = '\n'.join(...)`, then `if buf: buf += '\n'`, then `fd.write(buf)`. -/
def pageBuf (rows : List Str) : Str :=
  let buf := joinNL rows
  if buf = [] then buf else buf ++ ['\n']

/-- The page size of the export loop: `limit = 25000` in `dump_model`. -/
def dumpLimit : Nat := 25000

/-- The `' ORDER BY '` marker that `dump_model` searches for in a shard's
export statement. -/
def orderByTok : Str := " ORDER BY ".data

/-- The replacement `' WHERE %s ORDER BY ' % where` used by `dump_model`. -/
def whereRep (w : Str) : Str := " WHERE ".data ++ w ++ " ORDER BY ".data

/-- The statement rewrite performed at the top of each shard's scan:
`if where: stmt = stmt.replace(' ORDER BY ', ' WHERE %s ORDER BY ' % where)`.
Python truthiness of an optional string: `None` and the empty string are
falsy, so no rewrite happens for either. -/
def dumpStmt : Option Str → Str → Str
  | some w, stmt => if w = [] then stmt else pyReplace stmt orderByTok (whereRep w)
  | none, stmt => stmt

/-- The `while True` window loop of `dump_model` for a single shard, with the
backend abstracted as `fetch offset limit = export_value of each row fetched`.
Returns the list of fetched pages (in order) and the number of query
executions performed.  The loop executes the query, and if the page is empty
breaks, otherwise emits the page and advances the offset by `dumpLimit`.
The recursion is indexed by fuel, a modelling artifact: the theorems below
show the result is independent of the fuel once it exceeds the number of
pages. -/
def scanPages (fetch : Nat → Nat → List Str) : Nat → Nat → List (List Str) × Nat
  | _, 0 => ([], 0)
  | offset, fuel + 1 =>
    if fetch offset dumpLimit = [] then ([], 1)
    else
      (fetch offset dumpLimit :: (scanPages fetch (offset + dumpLimit) fuel).1,
        (scanPages fetch (offset + dumpLimit) fuel).2 + 1)

/-- One shard of a shard model: its export statement and its backend.
`fetch stmt offset limit` stands for
`session.execute(text(stmt).bindparams(o=offset, l=limit)).fetchall()`,
returning each row's `export_value`. -/
structure Shard where
  stmt : Str
  fetch : Str → Nat → Nat → List Str

/-- A shard model (`BlueShard`, `CellShard`, ...): its `export_header()` and
the ordered values of `shards()`. -/
structure ShardModel where
  header : Str
  shards : List Shard

/-- The writes `dump_model` performs for one shard: rewrite the statement,
then run the window loop and write one `pageBuf` per fetched page. -/
def shardWrites (wh : Option Str) (fuel : Nat) (sh : Shard) : List Str :=
  let stmt := dumpStmt wh sh.stmt
  ((scanPages (sh.fetch stmt) 0 fuel).1).map pageBuf

/-- All writes of `dump_model`: the header line, then each shard's pages in
shard order. -/
def dumpModelWrites (m : ShardModel) (wh : Option Str) (fuel : Nat) : List Str :=
  (m.header ++ ['\n']) :: (m.shards.map (shardWrites wh fuel)).flatten

/-- The external collaborators of the script, as explicit parameters:
`resolve` is `os.path.abspath(os.path.expanduser(·))`; `isFile` is
`os.path.isfile`; `parseFloat` and `parseInt` model Python `float(·)` and
`int(·)`, returning `none` when the text is not parseable (Python raises
`ValueError`); `bbox` is `ichnaea.geocalc.bbox`; `fmt` renders
`round(x, 5)` the way `'%s'` does; `hasConfig` is whether `ICHNAEA_CFG` or
`DB_RW_URI` is set in the environment; `model` is the `MODEL` dictionary of
`dump_file`; `fuel` bounds the page loops (a modelling artifact, see
`scanPages`). -/
structure Env where
  resolve : String → String
  isFile : String → Bool
  parseFloat : String → Option ℚ
  parseInt : String → Option ℤ
  bbox : ℚ → ℚ → ℤ → ℚ × ℚ × ℚ × ℚ
  fmt : ℚ → Str
  hasConfig : Bool
  model : String → ShardModel
  fuel : Nat

/-- `where_area(lat, lon, radius)`: `None` when any argument is `None`,
otherwise the bounding-box predicate
`` `lat` <= %s and `lat` >= %s and `lon` <= %s and `lon` >= %s `` filled with
the rounded bounds of `bbox(lat, lon, radius)` in the order
`max_lat, min_lat, max_lon, min_lon`. -/
def where_area (env : Env) : Option ℚ → Option ℚ → Option ℤ → Option Str
  | some la, some lo, some r =>
    let b := env.bbox la lo r
    some ("`lat` <= ".data ++ env.fmt b.1 ++ " and `lat` >= ".data ++ env.fmt b.2.1 ++
      " and `lon` <= ".data ++ env.fmt b.2.2.1 ++ " and `lon` >= ".data ++ env.fmt b.2.2.2)
  | _, _, _ => none

/-- `dump_file(datatype, session, filename, lat, lon, radius)`: build the
where clause, open the gzip writer on `filename`, run `dump_model` on
`MODEL[datatype]`, and return exit code 0.  Result: exit code paired with
the chunks written to the destination file. -/
def dump_file (env : Env) (datatype : String) (filename : String)
    (lat lon : Option ℚ) (radius : Option ℤ) : Nat × List Str :=
  let _ := filename
  let wh := where_area env lat lon radius
  (0, dumpModelWrites (env.model datatype) wh env.fuel)

/-- The parsed command-line arguments of `main`: `--datatype` and
`--filename` are required (argparse guarantees they are present),
`--lat`, `--lon`, `--radius` default to `None`. -/
structure Args where
  datatype : String
  filename : String
  lat : Option String
  lon : Option String
  radius : Option String

/-- How `main` terminates: a `return code` statement, or an uncaught Python
exception carrying a message (the interpreter then prints a traceback and
the process exits with status 1). -/
inductive Outcome where
  | ret (code : Nat)
  | exn (msg : String)
  deriving DecidableEq

/-- The observable behaviour of one invocation of `main`: how it terminated,
the lines it printed to standard output, and the chunks it wrote to the
destination file. -/
structure MainTrace where
  outcome : Outcome
  printed : List String
  writes : List Str
  deriving DecidableEq

/-- Stands for the text of `parser.print_help()`. -/
def helpText : String := "usage: location_dump [-h] --datatype DATATYPE --filename FILENAME ..."

/-- The coordinate-triple step of `main`:
`lat, lon, radius = (None, None, None)`, then, only if all three flags are
present, `lat = float(args.lat); lon = float(args.lon); radius = int(args.radius)`,
each conversion raising `ValueError` on unparseable text. -/
def mainTriple (env : Env) (args : Args) :
    Except String (Option ℚ × Option ℚ × Option ℤ) :=
  match args.lat, args.lon, args.radius with
  | some la, some lo, some r =>
    match env.parseFloat la with
    | none => .error "ValueError: could not convert string to float"
    | some plat =>
      match env.parseFloat lo with
      | none => .error "ValueError: could not convert string to float"
      | some plon =>
        match env.parseInt r with
        | none => .error "ValueError: invalid literal for int() with base 10"
        | some prad => .ok (some plat, some plon, some prad)
  | _, _, _ => .ok (none, none, none)

/-- `main(argv)` of `dump.py`, after argparse: check `args.filename` is
non-empty (else print help, return 1); resolve it and refuse an existing
file (return 1); reject an unknown datatype (return 1); parse the optional
coordinate triple (may raise); require configuration (return 1); then run
`dump_file` and return its exit code. -/
def main (env : Env) (args : Args) : MainTrace :=
  if args.filename = "" then ⟨.ret 1, [helpText], []⟩
  else
    let filename := env.resolve args.filename
    if env.isFile filename then ⟨.ret 1, ["File already exists."], []⟩
    else if args.datatype ∉ (["blue", "cell", "ocid", "wifi"] : List String) then
      ⟨.ret 1, ["Unknown data type."], []⟩
    else
      match mainTriple env args with
      | .error msg => ⟨.exn msg, [], []⟩
      | .ok (plat, plon, prad) =>
        if !env.hasConfig then
          ⟨.ret 1, ["You need to specify either ICHNAEA_CFG or DB_RW_URI."], []⟩
        else
          let r := dump_file env args.datatype filename plat plon prad
          ⟨.ret r.1, [], r.2⟩

/-- The process exit status produced by an `Outcome`: a returned code is
passed to `sys.exit`; an uncaught exception makes the interpreter exit
with status 1. -/
def exitCode : Outcome → Nat
  | .ret c => c
  | .exn _ => 1

/-- A backend that always returns an empty page, used to instantiate the
termination theorem. -/
def fetchEmpty : Nat → Nat → List Str := fun _ _ => []

/-- A three-row table and its windowed backend, used to instantiate the
windowing theorems. -/
def tableW : List Str := ["a".data, "b".data, "c".data]

/-- The windowed backend over `tableW`. -/
def fetchW : Nat → Nat → List Str := fun o _ => (tableW.drop o).take dumpLimit

/-- The windowed backend over three rows, reporting `min(limit, 3 - o)` rows
per window, used to instantiate the call-count theorem. -/
def fetchW3 : Nat → Nat → List Str :=
  fun o _ => ((List.replicate 3 "r".data).drop o).take dumpLimit

/-- A backend returning the single empty-string row on every window, used to
instantiate the page-write theorem. -/
def fetchOneEmpty : Nat → Nat → List Str := fun _ _ => [[]]

/-- A concrete environment in which `exports.csv.gz` already exists as a
regular file, used to instantiate the driver theorems. -/
def envExists : Env where
  resolve := fun s => s
  isFile := fun s => s == "exports.csv.gz"
  parseFloat := fun _ => none
  parseInt := fun _ => none
  bbox := fun _ _ _ => (0, 0, 0, 0)
  fmt := fun _ => []
  hasConfig := true
  model := fun _ => ⟨[], []⟩
  fuel := 1

/-- A concrete environment with no pre-existing file and unparseable numeric
text, used to instantiate the driver theorems. -/
def envFresh : Env where
  resolve := fun s => s
  isFile := fun _ => false
  parseFloat := fun _ => none
  parseInt := fun _ => none
  bbox := fun _ _ _ => (0, 0, 0, 0)
  fmt := fun _ => []
  hasConfig := true
  model := fun _ => ⟨[], []⟩
  fuel := 1

/-- Characterization of the window loop: if the backend returns a non-empty
page at the first `k` window offsets (counted from `o` in steps of
`dumpLimit`) and an empty page at the `k`-th, then with more than `k` units
of fuel the loop emits exactly those `k` pages in offset order and performs
exactly `k + 1` query executions. -/
theorem scanPages_eq (fetch : Nat → Nat → List Str) :
    ∀ (k o fuel : Nat),
      (∀ j, j < k → fetch (o + j * dumpLimit) dumpLimit ≠ []) →
      fetch (o + k * dumpLimit) dumpLimit = [] → k < fuel →
      scanPages fetch o fuel =
        ((List.range k).map (fun j => fetch (o + j * dumpLimit) dumpLimit), k + 1) := by
  intro k
  induction k with
  | zero =>
    intro o fuel _ he hf
    cases fuel with
    | zero => omega
    | succ f =>
      have he0 : fetch o dumpLimit = [] := by simpa using he
      simp [scanPages, he0]
  | succ k ih =>
    intro o fuel hne he hf
    cases fuel with
    | zero => omega
    | succ f =>
      have hne0 : fetch o dumpLimit ≠ [] := by
        have h := hne 0 (by omega)
        simpa using h
      have hrec : scanPages fetch (o + dumpLimit) f =
          ((List.range k).map (fun j => fetch ((o + dumpLimit) + j * dumpLimit) dumpLimit),
            k + 1) := by
        apply ih
        · intro j hj
          have h := hne (j + 1) (by omega)
          have e : o + (j + 1) * dumpLimit = (o + dumpLimit) + j * dumpLimit := by ring
          rwa [e] at h
        · have e : o + (k + 1) * dumpLimit = (o + dumpLimit) + k * dumpLimit := by ring
          rwa [e] at he
        · omega
      have hmap : (List.range (k + 1)).map (fun j => fetch (o + j * dumpLimit) dumpLimit) =
          fetch o dumpLimit ::
            (List.range k).map (fun j => fetch ((o + dumpLimit) + j * dumpLimit) dumpLimit) := by
        rw [List.range_succ_eq_map, List.map_cons, List.map_map]
        refine congrArg₂ _ (by norm_num) ?_
        apply List.map_congr_left
        intro j _
        simp only [Function.comp_apply, Nat.succ_eq_add_one]
        have e : o + (j + 1) * dumpLimit = (o + dumpLimit) + j * dumpLimit := by ring
        rw [e]
      rw [hmap]
      simp only [scanPages, if_neg hne0, hrec]

/-- `listStarts pat s` holds exactly when the first `pat.length` characters
of `s` are `pat`. -/
theorem listStarts_iff : ∀ (pat s : Str), listStarts pat s = true ↔ s.take pat.length = pat := by
  intro pat
  induction pat with
  | nil =>
    intro s
    simp [listStarts]
  | cons p ps ih =>
    intro s
    cases s with
    | nil => simp [listStarts]
    | cons c cs =>
      simp only [listStarts, Bool.and_eq_true, beq_iff_eq, List.length_cons,
        List.take_succ_cons, List.cons_eq_cons, ih cs]
      constructor
      · rintro ⟨h1, h2⟩
        exact ⟨h1.symm, h2⟩
      · rintro ⟨h1, h2⟩
        exact ⟨h1.symm, h2⟩

/-- A non-empty pattern never matches at the end of the string. -/
theorem listStarts_nil_false (pat : Str) (h : pat ≠ []) : listStarts pat [] = false := by
  cases pat with
  | nil => exact absurd rfl h
  | cons p ps => rfl

/-- Membership in the occurrence list. -/
theorem mem_occList (pat s : Str) (j : Nat) :
    j ∈ occList pat s ↔ j < s.length + 1 ∧ listStarts pat (s.drop j) = true := by
  simp [occList, List.mem_filter, List.mem_range]

/-- A singleton occurrence list means: the pattern matches at `i` and
nowhere else. -/
theorem occList_single (pat s : Str) (i : Nat) (hpat : pat ≠ [])
    (h : occList pat s = [i]) :
    listStarts pat (s.drop i) = true ∧
      ∀ j, j ≠ i → listStarts pat (s.drop j) = false := by
  constructor
  · have hm : i ∈ occList pat s := by
      rw [h]
      exact List.mem_singleton_self i
    exact ((mem_occList pat s i).mp hm).2
  · intro j hj
    by_cases hjl : j < s.length + 1
    · cases hb : listStarts pat (s.drop j) with
      | false => rfl
      | true =>
        have hm : j ∈ occList pat s := (mem_occList pat s j).mpr ⟨hjl, hb⟩
        rw [h] at hm
        exact absurd (List.mem_singleton.mp hm) hj
    · have hd : s.drop j = [] := List.drop_eq_nil_of_le (by omega)
      rw [hd]
      exact listStarts_nil_false pat hpat

/-- If the pattern matches at position `i`, the string decomposes as the
part before `i`, the pattern, and the part after the match. -/
theorem listStarts_decomp (pat s : Str) (i : Nat)
    (h : listStarts pat (s.drop i) = true) :
    s = s.take i ++ pat ++ s.drop (i + pat.length) := by
  have h2 : (s.drop i).take pat.length = pat := (listStarts_iff pat (s.drop i)).mp h
  have h3 : s.drop (i + pat.length) = (s.drop i).drop pat.length := by
    rw [List.drop_drop]
  calc s = s.take i ++ s.drop i := (List.take_append_drop i s).symm
    _ = s.take i ++ ((s.drop i).take pat.length ++ (s.drop i).drop pat.length) := by
        rw [List.take_append_drop pat.length (s.drop i)]
    _ = s.take i ++ (pat ++ s.drop (i + pat.length)) := by rw [h2, ← h3]
    _ = s.take i ++ pat ++ s.drop (i + pat.length) := (List.append_assoc _ _ _).symm

/-- When the pattern occurs nowhere in the string, `str.replace` leaves it
unchanged (any fuel). -/
theorem pyReplaceFuel_no_occ (pat rep : Str) :
    ∀ (s : Str) (fuel : Nat), (∀ i, listStarts pat (s.drop i) = false) →
      pyReplaceFuel pat rep fuel s = s := by
  intro s
  induction s with
  | nil =>
    intro fuel _
    cases fuel <;> rfl
  | cons c cs ih =>
    intro fuel h
    cases fuel with
    | zero => rfl
    | succ f =>
      have h0 : listStarts pat (c :: cs) = false := by simpa using h 0
      simp only [pyReplaceFuel, h0, Bool.false_eq_true, and_false, if_neg, ne_eq,
        not_false_eq_true, List.cons.injEq, true_and]
      exact ih f (fun i => by simpa using h (i + 1))

/-- When the pattern occurs exactly once, at position `i`, `str.replace`
yields the prefix before `i`, the replacement, and the suffix after the
matched pattern. -/
theorem pyReplaceFuel_single_occ (pat rep : Str) (hpat : pat ≠ []) :
    ∀ (s : Str) (i fuel : Nat), s.length ≤ fuel →
      listStarts pat (s.drop i) = true →
      (∀ j, j ≠ i → listStarts pat (s.drop j) = false) →
      pyReplaceFuel pat rep fuel s = s.take i ++ rep ++ s.drop (i + pat.length) := by
  intro s
  induction s with
  | nil =>
    intro i fuel _ hocc _
    exfalso
    rw [List.drop_nil] at hocc
    rw [listStarts_nil_false pat hpat] at hocc
    exact Bool.noConfusion hocc
  | cons c cs ih =>
    intro i fuel hf hocc huniq
    cases fuel with
    | zero => simp at hf
    | succ f =>
      cases i with
      | zero =>
        have hocc0 : listStarts pat (c :: cs) = true := by simpa using hocc
        have hcond : pat ≠ [] ∧ listStarts pat (c :: cs) = true := ⟨hpat, hocc0⟩
        have hrem : List.drop (pat.length - 1) cs = List.drop pat.length (c :: cs) := by
          cases pat with
          | nil => exact absurd rfl hpat
          | cons p ps => simp
        have hnorem : ∀ m, listStarts pat ((List.drop pat.length (c :: cs)).drop m) = false := by
          intro m
          rw [List.drop_drop]
          have hlp : pat.length ≠ 0 := fun h0 => hpat (List.eq_nil_of_length_eq_zero h0)
          exact huniq (pat.length + m) (by omega)
        simp only [pyReplaceFuel, if_pos hcond]
        rw [hrem, pyReplaceFuel_no_occ pat rep _ f hnorem]
        simp
      | succ i2 =>
        have h0 : listStarts pat (c :: cs) = false := by simpa using huniq 0 (by omega)
        have hnotcond : ¬ (pat ≠ [] ∧ listStarts pat (c :: cs) = true) := by
          rintro ⟨_, hc⟩
          rw [h0] at hc
          exact Bool.noConfusion hc
        have hih := ih i2 f (by simpa using hf)
          (by simpa using hocc)
          (by
            intro j hj
            have := huniq (j + 1) (by omega)
            simpa using this)
        have hdrop : List.drop (i2 + 1 + pat.length) (c :: cs) =
            List.drop (i2 + pat.length) cs := by
          have e : i2 + 1 + pat.length = (i2 + pat.length) + 1 := by ring
          rw [e, List.drop_succ_cons]
        simp only [pyReplaceFuel, if_neg hnotcond, hih, hdrop, List.take_succ_cons,
          List.cons_append, List.append_assoc]

/-- Claim C5, amended: for a statement in which the `' ORDER BY '` marker
occurs exactly once (at position `i`) and a non-empty where clause,
`dump_model` rewrites the statement to
`<prefix> WHERE <predicate> ORDER BY <suffix>`: the part before the marker,
the injected predicate, and the ordering clause and everything after it are
preserved unchanged. -/
theorem dumpStmt_inserts_before_order_by (w stmt : Str) (i : Nat) (hw : w ≠ [])
    (hocc : occList orderByTok stmt = [i]) :
    dumpStmt (some w) stmt =
      stmt.take i ++ whereRep w ++ stmt.drop (i + orderByTok.length) ∧
    stmt = stmt.take i ++ orderByTok ++ stmt.drop (i + orderByTok.length) := by
  have hpat : orderByTok ≠ [] := by decide
  obtain ⟨hs, hu⟩ := occList_single orderByTok stmt i hpat hocc
  constructor
  · show (if w = [] then stmt else pyReplace stmt orderByTok (whereRep w)) = _
    rw [if_neg hw]
    exact pyReplaceFuel_single_occ orderByTok (whereRep w) hpat stmt i stmt.length
      (Nat.le_refl _) hs hu
  · exact listStarts_decomp orderByTok stmt i hs

theorem dumpStmt_inserts_before_order_by_witness :
    dumpStmt (some "`lat` <= 1".data) "SELECT a FROM t ORDER BY a".data =
      ("SELECT a FROM t ORDER BY a".data).take 15 ++ whereRep "`lat` <= 1".data ++
        ("SELECT a FROM t ORDER BY a".data).drop (15 + orderByTok.length) ∧
    "SELECT a FROM t ORDER BY a".data =
      ("SELECT a FROM t ORDER BY a".data).take 15 ++ orderByTok ++
        ("SELECT a FROM t ORDER BY a".data).drop (15 + orderByTok.length) :=
  dumpStmt_inserts_before_order_by "`lat` <= 1".data "SELECT a FROM t ORDER BY a".data 15
    (by decide) (by decide)

/-- Claim C5, counterexample: a where clause that is the empty string is not
`None`, yet `dump_model`'s `if where:` truthiness test skips the rewrite, so
no `WHERE` predicate is inserted before the ordering clause. -/
theorem dumpStmt_empty_where_cex :
    dumpStmt (some "".data) "SELECT a FROM t ORDER BY a".data =
        "SELECT a FROM t ORDER BY a".data ∧
      "SELECT a FROM t ORDER BY a".data ≠ "SELECT a FROM t WHERE  ORDER BY a".data := by
  constructor
  · rfl
  · decide

/-- Claim C9: the paginated scan loop terminates for every backend that is
eventually empty: there is a page count `k` such that the loop, started at
offset 0, fetches non-empty pages at offsets `0, L, 2L, ...` (advancing by
exactly `dumpLimit` per non-empty page), stops at the first empty page, and
returns the same result for every sufficient fuel bound. -/
theorem scan_loop_terminates (fetch : Nat → Nat → List Str)
    (h : ∃ M, ∀ o, M ≤ o → fetch o dumpLimit = []) :
    ∃ k, (∀ j, j < k → fetch (j * dumpLimit) dumpLimit ≠ []) ∧
      fetch (k * dumpLimit) dumpLimit = [] ∧
      ∀ fuel, k < fuel → scanPages fetch 0 fuel =
        ((List.range k).map (fun j => fetch (j * dumpLimit) dumpLimit), k + 1) := by
  classical
  obtain ⟨M, hM⟩ := h
  have hex : ∃ k, fetch (k * dumpLimit) dumpLimit = [] := by
    refine ⟨M, hM _ ?_⟩
    have h1 : M * 1 ≤ M * dumpLimit := by
      apply Nat.mul_le_mul_left
      simp [dumpLimit]
    simpa using h1
  refine ⟨Nat.find hex, ?_, Nat.find_spec hex, ?_⟩
  · intro j hj
    exact Nat.find_min hex hj
  · intro fuel hf
    have h := scanPages_eq fetch (Nat.find hex) 0 fuel
      (by intro j hj; simpa using Nat.find_min hex hj)
      (by simpa using Nat.find_spec hex) hf
    simpa using h

theorem scan_loop_terminates_witness :
    scanPages fetchEmpty 0 1 = ([], 1) ∧ scanPages fetchEmpty 0 5 = ([], 1) := by
  obtain ⟨k, hne, _, hstab⟩ := scan_loop_terminates fetchEmpty ⟨0, fun _ _ => rfl⟩
  have hk : k = 0 := by
    by_contra hk0
    exact hne 0 (by omega) rfl
  subst hk
  refine ⟨?_, ?_⟩
  · simpa using hstab 1 (by omega)
  · simpa using hstab 5 (by omega)

/-- Splitting a list into `k` consecutive windows of width `dumpLimit` and
concatenating them gives the list back, provided `k` windows cover it. -/
theorem flatten_windows :
    ∀ (k : Nat) (t : List Str), t.length ≤ k * dumpLimit →
      (((List.range k).map (fun j => (t.drop (j * dumpLimit)).take dumpLimit))).flatten = t := by
  intro k
  induction k with
  | zero =>
    intro t ht
    have ht0 : t = [] := by
      have h0 : t.length = 0 := by simpa using ht
      exact List.eq_nil_of_length_eq_zero h0
    simp [ht0]
  | succ k ih =>
    intro t ht
    have hmap : (List.range (k + 1)).map (fun j => (t.drop (j * dumpLimit)).take dumpLimit) =
        t.take dumpLimit ::
          (List.range k).map
            (fun j => ((t.drop dumpLimit).drop (j * dumpLimit)).take dumpLimit) := by
      rw [List.range_succ_eq_map, List.map_cons, List.map_map]
      refine congrArg₂ _ (by norm_num) ?_
      apply List.map_congr_left
      intro j _
      simp only [Function.comp_apply, Nat.succ_eq_add_one]
      have e : (t.drop dumpLimit).drop (j * dumpLimit) = t.drop ((j + 1) * dumpLimit) := by
        rw [List.drop_drop]
        have e2 : dumpLimit + j * dumpLimit = (j + 1) * dumpLimit := by ring
        rw [e2]
      rw [e]
    rw [hmap, List.flatten_cons]
    have hlen : (t.drop dumpLimit).length ≤ k * dumpLimit := by
      rw [List.length_drop]
      have ht2 : t.length ≤ k * dumpLimit + dumpLimit := by
        calc t.length ≤ (k + 1) * dumpLimit := ht
          _ = k * dumpLimit + dumpLimit := by ring
      omega
    rw [ih (t.drop dumpLimit) hlen]
    exact List.take_append_drop _ _

/-- Claim C1: for a backend whose every windowed query returns exactly the
rows of the table from `offset` up to `offset + limit` (in the table's fixed
order), the concatenation of all pages emitted by the paginated loop equals
the table — a single unwindowed scan of the shard. -/
theorem dump_windowed_concat (table : List Str) (fetch : Nat → Nat → List Str)
    (hfetch : ∀ o, fetch o dumpLimit = (table.drop o).take dumpLimit) :
    ∀ fuel, table.length < fuel → ((scanPages fetch 0 fuel).1).flatten = table := by
  intro fuel hfuel
  have hk : (table.length + dumpLimit - 1) / dumpLimit ≤ table.length := by
    simp only [dumpLimit]
    omega
  have heq := scanPages_eq fetch ((table.length + dumpLimit - 1) / dumpLimit) 0 fuel
    (by
      intro j hj
      rw [zero_add, hfetch]
      intro hcon
      have hlen := congrArg List.length hcon
      simp only [List.length_take, List.length_drop, List.length_nil] at hlen
      simp only [dumpLimit] at hj hlen
      omega)
    (by
      rw [zero_add, hfetch]
      have hdrop : table.drop ((table.length + dumpLimit - 1) / dumpLimit * dumpLimit) = [] := by
        apply List.drop_eq_nil_of_le
        simp only [dumpLimit]
        omega
      rw [hdrop, List.take_nil])
    (by omega)
  rw [heq]
  have hmap : (List.range ((table.length + dumpLimit - 1) / dumpLimit)).map
        (fun j => fetch (0 + j * dumpLimit) dumpLimit) =
      (List.range ((table.length + dumpLimit - 1) / dumpLimit)).map
        (fun j => (table.drop (j * dumpLimit)).take dumpLimit) := by
    apply List.map_congr_left
    intro j _
    rw [zero_add, hfetch]
  rw [hmap]
  apply flatten_windows
  simp only [dumpLimit]
  omega

theorem dump_windowed_concat_witness :
    ((scanPages fetchW 0 4).1).flatten = tableW :=
  dump_windowed_concat tableW fetchW (fun _ => rfl) 4 (by decide)

/-- Claim C2: if each windowed query at offset `o` returns
`min(limit, N - o)` rows (the windowed view of an `N`-row shard), the loop
performs exactly `ceil(N / limit) + 1` query executions, and the final
execution returns zero rows. -/
theorem dump_call_count (N : Nat) (fetch : Nat → Nat → List Str)
    (hfetch : ∀ o, (fetch o dumpLimit).length = min dumpLimit (N - o)) :
    ∀ fuel, N < fuel →
      (scanPages fetch 0 fuel).2 = (N + dumpLimit - 1) / dumpLimit + 1 ∧
      fetch ((N + dumpLimit - 1) / dumpLimit * dumpLimit) dumpLimit = [] := by
  intro fuel hfuel
  have hk : (N + dumpLimit - 1) / dumpLimit ≤ N := by
    simp only [dumpLimit]
    omega
  have he : fetch ((N + dumpLimit - 1) / dumpLimit * dumpLimit) dumpLimit = [] := by
    apply List.eq_nil_of_length_eq_zero
    rw [hfetch]
    simp only [dumpLimit]
    omega
  have heq := scanPages_eq fetch ((N + dumpLimit - 1) / dumpLimit) 0 fuel
    (by
      intro j hj
      intro hcon
      have hlen := congrArg List.length hcon
      rw [zero_add, hfetch] at hlen
      simp only [List.length_nil] at hlen
      simp only [dumpLimit] at hj hlen
      omega)
    (by rw [zero_add]; exact he)
    (by omega)
  rw [heq]
  exact ⟨rfl, he⟩

/-- For a non-empty page, the newline-join of its rows is empty exactly when
the page is a single row whose value is the empty string. -/
theorem joinNL_eq_nil_iff : ∀ rows : List Str, rows ≠ [] → (joinNL rows = [] ↔ rows = [[]]) := by
  intro rows hne
  match rows with
  | [r] => simp [joinNL]
  | r :: r2 :: rs => simp [joinNL]

/-- Claim C4, corrected: for every non-empty page, the written buffer is the
newline-join of the rows, with a trailing newline appended if and only if
that join is non-empty; the join is empty exactly for a page consisting of a
single empty-string row, and in that case nothing is written (no trailing
newline, although a row was emitted). -/
theorem pageBuf_trailing_newline (rows : List Str) (h : rows ≠ []) :
    (joinNL rows = [] → pageBuf rows = []) ∧
    (joinNL rows ≠ [] → pageBuf rows = joinNL rows ++ ['\n']) ∧
    (joinNL rows = [] ↔ rows = [[]]) := by
  refine ⟨?_, ?_, joinNL_eq_nil_iff rows h⟩
  · intro hj
    simp [pageBuf, hj]
  · intro hj
    simp [pageBuf, hj]

theorem pageBuf_trailing_newline_witness :
    pageBuf ["a".data] = joinNL ["a".data] ++ ['\n'] :=
  (pageBuf_trailing_newline ["a".data] (by decide)).2.1 (by decide)

/-- Claim C4, counterexample: the page consisting of one row whose
`export_value` is the empty string is written without a trailing newline
(indeed as zero bytes), although at least one row was emitted for it. -/
theorem pageBuf_single_empty_row_cex :
    pageBuf ["".data] ≠ joinNL ["".data] ++ ['\n'] := by decide

/-- Claim C10: for every non-empty page, the bytes written are the
newline-join plus one trailing newline when the join is non-empty and zero
bytes when it is empty (exactly the single-empty-row page), while the loop
still records the page and advances the offset by `dumpLimit` in either
case. -/
theorem page_write_bytes (rows : List Str) (h : rows ≠ []) :
    (joinNL rows ≠ [] → pageBuf rows = joinNL rows ++ ['\n']) ∧
    (joinNL rows = [] → pageBuf rows = []) ∧
    (joinNL rows = [] ↔ rows = [[]]) ∧
    (∀ (fetch : Nat → Nat → List Str) (offset fuel : Nat),
      fetch offset dumpLimit = rows →
      scanPages fetch offset (fuel + 1) =
        (rows :: (scanPages fetch (offset + dumpLimit) fuel).1,
          (scanPages fetch (offset + dumpLimit) fuel).2 + 1)) := by
  refine ⟨?_, ?_, joinNL_eq_nil_iff rows h, ?_⟩
  · intro hj
    simp [pageBuf, hj]
  · intro hj
    simp [pageBuf, hj]
  · intro fetch offset fuel hf
    simp [scanPages, hf, h]

theorem page_write_bytes_witness :
    pageBuf [[]] = [] ∧
      scanPages fetchOneEmpty 0 1 =
        ([[]] :: (scanPages fetchOneEmpty (0 + dumpLimit) 0).1,
          (scanPages fetchOneEmpty (0 + dumpLimit) 0).2 + 1) :=
  ⟨(page_write_bytes [[]] (by decide)).2.1 (by decide),
   (page_write_bytes [[]] (by decide)).2.2.2 fetchOneEmpty 0 0 rfl⟩

theorem dump_call_count_witness :
    (scanPages fetchW3 0 4).2 = (3 + dumpLimit - 1) / dumpLimit + 1 ∧
      fetchW3 ((3 + dumpLimit - 1) / dumpLimit * dumpLimit) dumpLimit = [] :=
  dump_call_count 3 fetchW3
    (by
      intro o
      simp [fetchW3, List.length_take, List.length_drop])
    4 (by omega)

/-- Claim C3: when the resolved `--filename` names an existing regular file,
`main` returns exit code 1, prints exactly the one-line diagnostic
`File already exists.`, performs no write, and so leaves the file's contents
unchanged.  The side condition says the real filesystem fact that resolving
the empty filename (the current directory) is not a regular file. -/
theorem main_existing_file_exits_one (env : Env) (args : Args)
    (henv : env.isFile (env.resolve "") = false)
    (h : env.isFile (env.resolve args.filename) = true) :
    main env args = ⟨.ret 1, ["File already exists."], []⟩ := by
  have hfn : args.filename ≠ "" := by
    intro he
    rw [he, henv] at h
    exact Bool.noConfusion h
  simp [main, hfn, h]

theorem main_existing_file_exits_one_witness :
    main envExists ⟨"wifi", "exports.csv.gz", none, none, none⟩ =
      ⟨.ret 1, ["File already exists."], []⟩ :=
  main_existing_file_exits_one envExists ⟨"wifi", "exports.csv.gz", none, none, none⟩
    (by decide) (by decide)

/-- Claim C6, counterexample: with `--datatype bogus` and a destination that
already exists, `main` prints the file-exists diagnostic, not the
unknown-data-type one: the path check runs before datatype validation. -/
theorem main_checks_file_before_datatype_cex :
    main envExists ⟨"bogus", "exports.csv.gz", none, none, none⟩ =
        ⟨.ret 1, ["File already exists."], []⟩ ∧
      (main envExists ⟨"bogus", "exports.csv.gz", none, none, none⟩).printed ≠
        ["Unknown data type."] := by
  constructor
  · decide
  · decide

/-- Claim C6, amended: `main` checks the destination path before validating
the datatype; for an invocation with a non-empty `--filename` whose resolved
destination does not already exist and whose `--datatype` is not one of
`blue`, `cell`, `ocid`, `wifi`, it returns exit code 1 with the
unknown-data-type diagnostic and performs no write. -/
theorem main_unknown_datatype_fresh_path (env : Env) (args : Args)
    (hfn : args.filename ≠ "")
    (hnf : env.isFile (env.resolve args.filename) = false)
    (hdt : args.datatype ∉ (["blue", "cell", "ocid", "wifi"] : List String)) :
    main env args = ⟨.ret 1, ["Unknown data type."], []⟩ := by
  simp [main, hfn, hnf, hdt]

theorem main_unknown_datatype_fresh_path_witness :
    main envFresh ⟨"bogus", "out.csv.gz", none, none, none⟩ =
      ⟨.ret 1, ["Unknown data type."], []⟩ :=
  main_unknown_datatype_fresh_path envFresh ⟨"bogus", "out.csv.gz", none, none, none⟩
    (by decide) (by decide) (by decide)

/-- Claim C7: when `--lat`, `--lon` and `--radius` are all present but some
of them is not parseable as a number of the expected kind, the process exits
with status 1 (either an early diagnostic return, or the uncaught
`ValueError` of the conversion), nothing is ever written, and the user sees
a report: either a printed diagnostic or the exception. -/
theorem main_malformed_triple (env : Env) (args : Args) (la lo ra : String)
    (hla : args.lat = some la) (hlo : args.lon = some lo) (hra : args.radius = some ra)
    (hbad : env.parseFloat la = none ∨ env.parseFloat lo = none ∨ env.parseInt ra = none) :
    exitCode (main env args).outcome = 1 ∧ (main env args).writes = [] ∧
      ((main env args).printed ≠ [] ∨ ∃ m, (main env args).outcome = .exn m) := by
  have htrip : ∃ m, mainTriple env args = .error m := by
    simp only [mainTriple, hla, hlo, hra]
    cases hf1 : env.parseFloat la with
    | none => exact ⟨_, rfl⟩
    | some q1 =>
      cases hf2 : env.parseFloat lo with
      | none => exact ⟨_, rfl⟩
      | some q2 =>
        cases hf3 : env.parseInt ra with
        | none => exact ⟨_, rfl⟩
        | some z =>
          rcases hbad with hb | hb | hb
          · rw [hf1] at hb
            exact Option.noConfusion hb
          · rw [hf2] at hb
            exact Option.noConfusion hb
          · rw [hf3] at hb
            exact Option.noConfusion hb
  by_cases hfn : args.filename = ""
  · simp [main, hfn, exitCode, helpText]
  · by_cases hex : env.isFile (env.resolve args.filename)
    · simp [main, hfn, hex, exitCode]
    · by_cases hdt : args.datatype ∈ (["blue", "cell", "ocid", "wifi"] : List String)
      · obtain ⟨m, hm⟩ := htrip
        simp [main, hfn, hex, hdt, hm, exitCode]
      · simp [main, hfn, hex, hdt, exitCode]

theorem main_malformed_triple_witness :
    exitCode (main envFresh ⟨"wifi", "out.csv.gz", some "abc", some "1.0", some "500"⟩).outcome
        = 1 ∧
      (main envFresh ⟨"wifi", "out.csv.gz", some "abc", some "1.0", some "500"⟩).writes = [] :=
  ⟨(main_malformed_triple envFresh ⟨"wifi", "out.csv.gz", some "abc", some "1.0", some "500"⟩
      "abc" "1.0" "500" rfl rfl rfl (Or.inl rfl)).1,
   (main_malformed_triple envFresh ⟨"wifi", "out.csv.gz", some "abc", some "1.0", some "500"⟩
      "abc" "1.0" "500" rfl rfl rfl (Or.inl rfl)).2.1⟩

/-- Claim C8: partial coordinate triples mean no geographic filter:
`where_area` returns `None` whenever any of its arguments is `None`; `main`
leaves the triple at `(None, None, None)` unless all three flags are
present; and with no where clause the statement rewrite of `dump_model`
injects nothing into any shard query. -/
theorem partial_triple_no_filter :
    (∀ (env : Env) (la lo : Option ℚ) (ra : Option ℤ),
      la = none ∨ lo = none ∨ ra = none → where_area env la lo ra = none) ∧
    (∀ (env : Env) (args : Args),
      args.lat = none ∨ args.lon = none ∨ args.radius = none →
      mainTriple env args = .ok (none, none, none)) ∧
    (∀ (env : Env) (stmt : Str), dumpStmt (where_area env none none none) stmt = stmt) := by
  refine ⟨?_, ?_, ?_⟩
  · intro env la lo ra h
    rcases h with h | h | h
    · subst h
      rfl
    · subst h
      cases la <;> rfl
    · subst h
      cases la <;> cases lo <;> rfl
  · intro env args h
    rcases h with h | h | h
    · simp [mainTriple, h]
    · cases hl : args.lat <;> simp [mainTriple, h, hl]
    · cases hl : args.lat <;> cases ho : args.lon <;> simp [mainTriple, h, hl, ho]
  · intro env stmt
    rfl

theorem partial_triple_no_filter_witness :
    where_area envFresh none (some 1) (some 100) = none ∧
      mainTriple envFresh ⟨"wifi", "out.csv.gz", none, some "1.0", some "500"⟩ =
        .ok (none, none, none) ∧
      dumpStmt (where_area envFresh none none none) "SELECT a FROM t ORDER BY a".data =
        "SELECT a FROM t ORDER BY a".data :=
  ⟨partial_triple_no_filter.1 envFresh none (some 1) (some 100) (Or.inl rfl),
   partial_triple_no_filter.2.1 envFresh ⟨"wifi", "out.csv.gz", none, some "1.0", some "500"⟩
     (Or.inl rfl),
   partial_triple_no_filter.2.2 envFresh "SELECT a FROM t ORDER BY a".data⟩

end Dump
